import Mathlib

/-!
Shallow embedding of pyz3_utils' nonlinear.py (class Piecewise) and of the
narrow backend capability it relies on, together with proofs that settle the
frozen claims about the module.

Modelling conventions:
* z3 ArithRef / BoolRef terms become the mutual AST AExpr / BExpr below, with
  rational-valued semantics (z3 Real sort) under an assignment of names.
* Symbol names are lists of characters; the decimal rendering of ids inside
  f-strings is the function natChars.
* MySolver (imported from .my_solver, not part of the sources here) is
  modelled from the spec as an incremental assertion store with a scope
  stack; z3's check() is an external oracle passed as a parameter.
* Python's mutation of the instance and of the solver is modelled by state
  passing: every method returns the updated Piecewise and MySolver.
* The process-wide class counter Piecewise.id is passed and returned
  explicitly by the constructor.
-/

/-- Decimal digit characters, as produced by Python str() of a nonnegative
integer. Arguments ten or larger never occur (guarded by the callers). -/
def digitChar : Nat → Char
  | 0 => '0'
  | 1 => '1'
  | 2 => '2'
  | 3 => '3'
  | 4 => '4'
  | 5 => '5'
  | 6 => '6'
  | 7 => '7'
  | 8 => '8'
  | 9 => '9'
  | _ => '*'

/-- Decimal rendering of a natural number, most significant digit first:
the text produced for the id fields interpolated into the f-strings of
nonlinear.py. -/
def natChars (n : Nat) : List Char :=
  if h : n < 10 then [digitChar n]
  else natChars (n / 10) ++ [digitChar (n % 10)]
decreasing_by exact Nat.div_lt_self (by omega) (by omega)

/-- Value of a digit string, used only to invert natChars. -/
def digitsVal (l : List Char) : Nat :=
  l.foldl (fun a c => a * 10 + (c.toNat - 48)) 0

mutual
/-- z3 arithmetic terms (ArithRef) as used by nonlinear.py: real-valued
variables, numeric literals, addition, multiplication and If. -/
inductive AExpr : Type where
  | var : List Char → AExpr
  | lit : Rat → AExpr
  | add : AExpr → AExpr → AExpr
  | mul : AExpr → AExpr → AExpr
  | ite : BExpr → AExpr → AExpr → AExpr

/-- z3 boolean terms (BoolRef) as used by nonlinear.py: comparisons,
conjunction, implication and negation. -/
inductive BExpr : Type where
  | lt : AExpr → AExpr → BExpr
  | le : AExpr → AExpr → BExpr
  | ge : AExpr → AExpr → BExpr
  | eq : AExpr → AExpr → BExpr
  | ne : AExpr → AExpr → BExpr
  | and : BExpr → BExpr → BExpr
  | implies : BExpr → BExpr → BExpr
  | not : BExpr → BExpr
end

mutual
/-- Evaluation of an arithmetic term under an assignment of the named real
unknowns. -/
def AExpr.eval (r : List Char → Rat) : AExpr → Rat
  | .var x => r x
  | .lit q => q
  | .add a b => a.eval r + b.eval r
  | .mul a b => a.eval r * b.eval r
  | .ite c a b => if c.eval r then a.eval r else b.eval r

/-- Evaluation of a boolean term under an assignment of the named real
unknowns. -/
def BExpr.eval (r : List Char → Rat) : BExpr → Bool
  | .lt a b => decide (a.eval r < b.eval r)
  | .le a b => decide (a.eval r ≤ b.eval r)
  | .ge a b => decide (b.eval r ≤ a.eval r)
  | .eq a b => decide (a.eval r = b.eval r)
  | .ne a b => decide (¬ a.eval r = b.eval r)
  | .and a b => a.eval r && b.eval r
  | .implies a b => !a.eval r || b.eval r
  | .not a => !a.eval r
end

/-- Name generated at nonlinear.py:63, the f-string
auxPiecewiseVal_{self.id}. -/
def valName (i : Nat) : List Char :=
  "auxPiecewiseVal_".data ++ natChars i

/-- Name generated at nonlinear.py:72, the f-string
auxPiecewiseMul_{self.name}_{self.id},{self.aux_id}. -/
def mulName (nm : List Char) (i a : Nat) : List Char :=
  "auxPiecewiseMul_".data ++ nm ++ '_' :: natChars i ++ ',' :: natChars a

/-- Name generated at nonlinear.py:79, the f-string
auxPiecewiseAdd_{self.id},{self.aux_id}. -/
def addName (i a : Nat) : List Char :=
  "auxPiecewiseAdd_".data ++ natChars i ++ ',' :: natChars a

/-- Modelled from the spec: MySolver, imported from .my_solver, is not among
the given sources. Section 6 of the spec specifies it as an incremental
constraint store with add(constraint), push()/pop() scope checkpoints,
check(), and construction of fresh named real unknowns. The state is the
flat list of asserted constraints, a stack of saved assertion counts, and
the list of declared symbol names (z3 symbol creation is recorded here). -/
structure MySolver where
  decls : List (List Char)
  assertions : List BExpr
  stack : List Nat

/-- Modelled from the spec: the fresh, empty backend model that verify
constructs when its optional solver argument is omitted (MySolver()). -/
def MySolver.empty : MySolver := ⟨[], [], []⟩

/-- Modelled from the spec: add(constraint) registers a boolean constraint
in the current scope. -/
def MySolver.add (s : MySolver) (c : BExpr) : MySolver :=
  { s with assertions := s.assertions ++ [c] }

/-- Modelled from the spec: push() saves the current scope (the number of
assertions now present) on the scope stack. -/
def MySolver.push (s : MySolver) : MySolver :=
  { s with stack := s.assertions.length :: s.stack }

/-- Modelled from the spec: pop() restores the most recently pushed scope,
discarding the assertions added since. Popping with an empty stack does not
occur in this module (verify brackets its single pop with a push). -/
def MySolver.pop (s : MySolver) : MySolver :=
  match s.stack with
  | [] => s
  | n :: rest => { s with assertions := s.assertions.take n, stack := rest }

/-- An assignment satisfies a solver state when every asserted constraint
evaluates to true. -/
def stateSat (r : List Char → Rat) (s : MySolver) : Prop :=
  ∀ c ∈ s.assertions, BExpr.eval r c = true

/-- Outcome of the external z3 check(): sat, unsat or unknown. -/
inductive CheckResult : Type where
  | sat
  | unsat
  | unknown
deriving DecidableEq

/-- Allocation of a fresh named real unknown, z3.Real(name): returns the
variable term and records the declaration in the backend. -/
def z3Real (nm : List Char) (s : MySolver) : AExpr × MySolver :=
  (AExpr.var nm, { s with decls := s.decls ++ [nm] })

/-- The Piecewise instance state, nonlinear.py lines 23 to 34: caller
supplied display name, the id drawn from the process-wide counter, the
per-instance auxiliary counter aux_id, the cached materialized value
val_def (absent until the first call to val), and the condition/value
list vals. The stored solver reference self.s is modelled by threading
the solver through each operation. -/
structure Piecewise where
  name : List Char
  id : Nat
  aux_id : Nat
  val_def : Option AExpr
  vals : List (BExpr × Rat)

/-- Piecewise.__init__, nonlinear.py lines 23 to 34: store the name and the
condition/value list, take the current value of the class counter as this
instance's id, increment the class counter, start aux_id at zero and leave
val_def unset. The class counter is the extra argument and result. -/
def Piecewise.init (name : List Char) (vals : List (BExpr × Rat)) (counter : Nat) :
    Piecewise × Nat :=
  (⟨name, counter, 0, none, vals⟩, counter + 1)

/-- Piecewise.val, nonlinear.py lines 60 to 66: return the cached handle
when present; otherwise create z3.Real over the name valName id, assert
Implies(c, handle == v) for every pair, cache the handle and return it. -/
def Piecewise.val (p : Piecewise) (s : MySolver) : AExpr × Piecewise × MySolver :=
  match p.val_def with
  | some v => (v, p, s)
  | none =>
    let ar := z3Real (valName p.id) s
    let s2 := p.vals.foldl
      (fun t cv => t.add (BExpr.implies cv.1 (BExpr.eq ar.1 (AExpr.lit cv.2)))) ar.2
    (ar.1, { p with val_def := some ar.1 }, s2)

/-- Piecewise.__mul__, nonlinear.py lines 68 to 76. A Python float or int
operand is Sum.inl, a z3 ArithRef operand is Sum.inr (the isinstance
dispatch). Literal case: self.val() * other. Symbolic case: create a fresh
auxiliary over mulName, increment aux_id, and assert
Implies(c, aux == v * other) for every pair. -/
def Piecewise.mul (p : Piecewise) (other : Rat ⊕ AExpr) (s : MySolver) :
    AExpr × Piecewise × MySolver :=
  match other with
  | Sum.inl k =>
    let r := p.val s
    (AExpr.mul r.1 (AExpr.lit k), r.2.1, r.2.2)
  | Sum.inr e =>
    let ar := z3Real (mulName p.name p.id p.aux_id) s
    let p' := { p with aux_id := p.aux_id + 1 }
    let s' := p.vals.foldl
      (fun t cv => t.add (BExpr.implies cv.1
        (BExpr.eq ar.1 (AExpr.mul (AExpr.lit cv.2) e)))) ar.2
    (ar.1, p', s')

/-- Value of v + other inside Piecewise.__add__: when other is a Python
number the addition happens in Python and yields a literal; when other is a
z3 term the result is the symbolic sum. -/
def pyAdd (v : Rat) (other : Rat ⊕ AExpr) : AExpr :=
  match other with
  | Sum.inl k => AExpr.lit (v + k)
  | Sum.inr e => AExpr.add (AExpr.lit v) e

/-- Piecewise.__add__, nonlinear.py lines 78 to 83: always create a fresh
auxiliary over addName, increment aux_id, and assert
Implies(c, aux == v + other) for every pair; no literal shortcut. -/
def Piecewise.addOp (p : Piecewise) (other : Rat ⊕ AExpr) (s : MySolver) :
    AExpr × Piecewise × MySolver :=
  let ar := z3Real (addName p.id p.aux_id) s
  let p' := { p with aux_id := p.aux_id + 1 }
  let s' := p.vals.foldl
    (fun t cv => t.add (BExpr.implies cv.1 (BExpr.eq ar.1 (pyAdd cv.2 other)))) ar.2
  (ar.1, p', s')

/-- The term sum([If(c, 1, 0) for (c, _) in self.vals]) of nonlinear.py:94:
Python's builtin sum folds addition starting from the integer 0. -/
def numSat (vals : List (BExpr × Rat)) : AExpr :=
  vals.foldl (fun acc cv => AExpr.add acc (AExpr.ite cv.1 (AExpr.lit 1) (AExpr.lit 0)))
    (AExpr.lit 0)

/-- The solver state on which verify runs check: the given state after
s.push() and s.add(num_sat != 1), nonlinear.py lines 95 to 96. -/
def Piecewise.queryState (p : Piecewise) (s : MySolver) : MySolver :=
  s.push.add (BExpr.ne (numSat p.vals) (AExpr.lit 1))

/-- Piecewise.verify, nonlinear.py lines 85 to 99: default the optional
solver to a fresh MySolver(), push, assert num_sat != 1, run the external
check (the oracle parameter), pop, and then run the statement
assert satisfiable != z3.unsat, whose failure carries the check outcome and
the condition/value list. The second component is the solver state verify
leaves behind; the first is ok () for a run that returns normally and
error (outcome, vals) for a run that raises AssertionError. -/
def Piecewise.verify (p : Piecewise) (sOpt : Option MySolver)
    (check : MySolver → CheckResult) :
    Except (CheckResult × List (BExpr × Rat)) Unit × MySolver :=
  let s := sOpt.getD MySolver.empty
  let s2 := p.queryState s
  let satisfiable := check s2
  let s3 := s2.pop
  (if satisfiable = CheckResult.unsat then Except.error (satisfiable, p.vals)
   else Except.ok (), s3)

/-- Python errors that Piecewise.from_var can raise. -/
inductive PyError : Type where
  | assertionError
  | indexError
  | typeError
deriving DecidableEq

/-- The list built by nonlinear.py lines 50 to 54 before None filtering:
the pair (var < breaks[0], range_vals[0]), then for each i below
len(breaks) - 1 the pair (And(var >= breaks[i], var < breaks[i+1]),
range_vals[i+1]), then the pair (var >= breaks[-1], range_vals[-1]).
Indexing is total here because from_var reaches this code only with
nonempty breaks and len(range_vals) = len(breaks) + 1. -/
def rawVals (var : AExpr) (breaks : List Rat) (range_vals : List (Option Rat)) :
    List (BExpr × Option Rat) :=
  [(BExpr.lt var (AExpr.lit (breaks.getD 0 0)), range_vals.getD 0 none)]
    ++ (List.range (breaks.length - 1)).map (fun i =>
        (BExpr.and (BExpr.ge var (AExpr.lit (breaks.getD i 0)))
          (BExpr.lt var (AExpr.lit (breaks.getD (i + 1) 0))),
         range_vals.getD (i + 1) none))
    ++ [(BExpr.ge var (AExpr.lit (breaks.getD (breaks.length - 1) 0)),
         range_vals.getD (range_vals.length - 1) none)]

/-- The comprehension of nonlinear.py:57: drop every pair whose value is
None, keeping the others in order. -/
def dropNones (l : List (BExpr × Option Rat)) : List (BExpr × Rat) :=
  l.filterMap (fun cv => cv.2.map (fun v => (cv.1, v)))

/-- The condition/value list from_var computes, nonlinear.py lines 50 to 57. -/
def fromVarVals (var : AExpr) (breaks : List Rat) (range_vals : List (Option Rat)) :
    List (BExpr × Rat) :=
  dropNones (rawVals var breaks range_vals)

/-- Piecewise.from_var, nonlinear.py lines 36 to 58. The assert on line 49
raises AssertionError on a length mismatch before anything else runs. With
empty breaks, evaluating var < breaks[0] on line 50 raises IndexError. With
nonempty breaks the list of lines 50 to 57 is built, and line 58 then
evaluates Piecewise(s, vals): __init__ takes the three required arguments
s, name and vals but the call supplies only two, so Python raises TypeError
before __init__ runs; no Piecewise is created, the class counter is not
advanced and the solver is never touched (the unused arguments s and
counter mirror that). -/
def Piecewise.from_var (var : AExpr) (breaks : List Rat)
    (range_vals : List (Option Rat)) (_s : MySolver) (_counter : Nat) :
    Except PyError (Piecewise × Nat) :=
  if range_vals.length = breaks.length + 1 then
    match breaks with
    | [] => Except.error PyError.indexError
    | _ :: _ =>
      let _vals := fromVarVals var breaks range_vals
      Except.error PyError.typeError
  else Except.error PyError.assertionError

/-- Number of currently true conditions under an assignment: the quantity
that the sum of nonlinear.py:94 denotes. -/
def countTrue (r : List Char → Rat) (vals : List (BExpr × Rat)) : Nat :=
  (vals.filter (fun cv => BExpr.eval r cv.1)).length

/-- Names val, mul and add can generate for an instance: the materialized
value name and the auxiliary names for any value of the auxiliary counter.
These are exactly the arguments the three z3Real call sites receive. -/
def Piecewise.isGenName (p : Piecewise) (n : List Char) : Prop :=
  n = valName p.id ∨ (∃ a, n = mulName p.name p.id a) ∨ (∃ a, n = addName p.id a)

/-- Example condition/value list over one real unknown x: value 0 when
x < 1 and value 1 when x >= 1. These conditions are mutually exclusive and
exhaustive, so a sound backend reports the query of verify unsatisfiable. -/
def exVals : List (BExpr × Rat) :=
  [(BExpr.lt (AExpr.var "x".data) (AExpr.lit 1), 0),
   (BExpr.ge (AExpr.var "x".data) (AExpr.lit 1), 1)]

/-- Example Piecewise instance carrying exVals, built by the constructor
with the class counter at zero. -/
def pEx : Piecewise := (Piecewise.init "p".data exVals 0).1

lemma digitChar_toNat {m : Nat} (h : m < 10) : (digitChar m).toNat = 48 + m := by
  interval_cases m <;> rfl

lemma digitChar_ne_comma {m : Nat} (h : m < 10) : digitChar m ≠ ',' := by
  interval_cases m <;> decide

lemma digitChar_ne_underscore {m : Nat} (h : m < 10) : digitChar m ≠ '_' := by
  interval_cases m <;> decide

lemma digitsVal_append_digit (l : List Char) (c : Char) :
    digitsVal (l ++ [c]) = digitsVal l * 10 + (c.toNat - 48) := by
  simp [digitsVal, List.foldl_append]

lemma digitsVal_natChars (n : Nat) : digitsVal (natChars n) = n := by
  induction n using Nat.strong_induction_on with
  | _ n ih =>
    rw [natChars]
    split
    · next h =>
      simp [digitsVal, digitChar_toNat h]
    · next h =>
      rw [digitsVal_append_digit, ih (n / 10) (Nat.div_lt_self (by omega) (by omega)),
        digitChar_toNat (Nat.mod_lt n (by omega))]
      omega

lemma natChars_inj {m n : Nat} (h : natChars m = natChars n) : m = n := by
  have h' := congrArg digitsVal h
  rwa [digitsVal_natChars, digitsVal_natChars] at h'

lemma mem_natChars {c : Char} (n : Nat) (hc : c ∈ natChars n) :
    ∃ m, m < 10 ∧ c = digitChar m := by
  induction n using Nat.strong_induction_on with
  | _ n ih =>
    rw [natChars] at hc
    split at hc
    · next h =>
      simp only [List.mem_singleton] at hc
      exact ⟨n, h, hc⟩
    · next h =>
      rcases List.mem_append.mp hc with hc' | hc'
      · exact ih (n / 10) (Nat.div_lt_self (by omega) (by omega)) hc'
      · simp only [List.mem_singleton] at hc'
        exact ⟨n % 10, Nat.mod_lt n (by omega), hc'⟩

lemma comma_not_mem_natChars (n : Nat) : ',' ∉ natChars n := by
  intro h
  rcases mem_natChars n h with ⟨m, hm, hc⟩
  exact digitChar_ne_comma hm hc.symm

lemma underscore_not_mem_natChars (n : Nat) : '_' ∉ natChars n := by
  intro h
  rcases mem_natChars n h with ⟨m, hm, hc⟩
  exact digitChar_ne_underscore hm hc.symm

lemma append_cons_inj {α : Type} {c : α} :
    ∀ {a₁ a₂ b₁ b₂ : List α}, c ∉ a₁ → c ∉ a₂ → a₁ ++ c :: b₁ = a₂ ++ c :: b₂ →
      a₁ = a₂ ∧ b₁ = b₂ := by
  intro a₁
  induction a₁ with
  | nil =>
    intro a₂ b₁ b₂ h₁ h₂ h
    cases a₂ with
    | nil => simpa using h
    | cons x xs =>
      simp only [List.nil_append, List.cons_append, List.cons.injEq] at h
      exact absurd (h.1 ▸ List.mem_cons_self x xs) h₂
  | cons y ys ih =>
    intro a₂ b₁ b₂ h₁ h₂ h
    cases a₂ with
    | nil =>
      simp only [List.nil_append, List.cons_append, List.cons.injEq] at h
      exact absurd (h.1.symm ▸ List.mem_cons_self y ys) h₁
    | cons x xs =>
      simp only [List.cons_append, List.cons.injEq] at h
      have h₁' : c ∉ ys := fun hm => h₁ (List.mem_cons_of_mem y hm)
      have h₂' : c ∉ xs := fun hm => h₂ (List.mem_cons_of_mem x hm)
      rcases ih h₁' h₂' h.2 with ⟨he, hb⟩
      exact ⟨by rw [h.1, he], hb⟩

lemma tags_distinct {p₁ p₂ r₁ r₂ : List Char} (hlen : p₁.length = p₂.length)
    (hne : p₁ ≠ p₂) : p₁ ++ r₁ ≠ p₂ ++ r₂ :=
  fun h => hne (List.append_inj h hlen).1

lemma valName_inj {i j : Nat} (h : valName i = valName j) : i = j :=
  natChars_inj (List.append_cancel_left h)

lemma comma_not_mem_addTag_digits (i : Nat) : ',' ∉ "auxPiecewiseAdd_".data ++ natChars i := by
  intro h
  rcases List.mem_append.mp h with h' | h'
  · revert h'
    decide
  · exact comma_not_mem_natChars i h'

lemma addName_inj {i a j b : Nat} (h : addName i a = addName j b) : i = j ∧ a = b := by
  unfold addName at h
  rcases append_cons_inj (comma_not_mem_addTag_digits i) (comma_not_mem_addTag_digits j) h
    with ⟨hi, ha⟩
  exact ⟨natChars_inj (List.append_cancel_left hi), natChars_inj ha⟩

lemma mulName_inj {nm₁ nm₂ : List Char} {i a j b : Nat}
    (h : mulName nm₁ i a = mulName nm₂ j b) : i = j ∧ a = b := by
  unfold mulName at h
  have hrev := congrArg List.reverse h
  simp only [List.reverse_append, List.reverse_cons, List.append_assoc,
    List.singleton_append] at hrev
  have hca : ',' ∉ (natChars a).reverse := fun hm =>
    comma_not_mem_natChars a (List.mem_reverse.mp hm)
  have hcb : ',' ∉ (natChars b).reverse := fun hm =>
    comma_not_mem_natChars b (List.mem_reverse.mp hm)
  rcases append_cons_inj hca hcb hrev with ⟨ha, hrest⟩
  have hui : '_' ∉ (natChars i).reverse := fun hm =>
    underscore_not_mem_natChars i (List.mem_reverse.mp hm)
  have huj : '_' ∉ (natChars j).reverse := fun hm =>
    underscore_not_mem_natChars j (List.mem_reverse.mp hm)
  simp only [List.append_eq, List.append_assoc, List.singleton_append] at hrest
  rcases append_cons_inj hui huj hrest with ⟨hi, _⟩
  exact ⟨natChars_inj (List.reverse_inj.mp hi), natChars_inj (List.reverse_inj.mp ha)⟩

lemma valName_ne_mulName (i : Nat) (nm : List Char) (j a : Nat) :
    valName i ≠ mulName nm j a := by
  unfold valName mulName
  simp only [List.append_assoc]
  refine tags_distinct ?_ ?_ <;> decide

lemma valName_ne_addName (i j a : Nat) : valName i ≠ addName j a := by
  unfold valName addName
  simp only [List.append_assoc]
  refine tags_distinct ?_ ?_ <;> decide

lemma mulName_ne_addName (nm : List Char) (i a j b : Nat) :
    mulName nm i a ≠ addName j b := by
  unfold mulName addName
  simp only [List.append_assoc]
  refine tags_distinct ?_ ?_ <;> decide

lemma foldl_add_eq (g : BExpr × Rat → BExpr) (l : List (BExpr × Rat)) (s : MySolver) :
    l.foldl (fun t cv => t.add (g cv)) s
      = { s with assertions := s.assertions ++ l.map g } := by
  induction l generalizing s with
  | nil => simp
  | cons hd tl ih =>
    rw [List.foldl_cons, ih]
    simp [MySolver.add]

lemma numSat_eval_aux (r : List Char → Rat) (vals : List (BExpr × Rat)) (acc : AExpr) :
    AExpr.eval r (vals.foldl
        (fun acc cv => AExpr.add acc (AExpr.ite cv.1 (AExpr.lit 1) (AExpr.lit 0))) acc)
      = AExpr.eval r acc + (countTrue r vals : Rat) := by
  induction vals generalizing acc with
  | nil => simp [countTrue]
  | cons hd tl ih =>
    rw [List.foldl_cons, ih]
    cases h : BExpr.eval r hd.1 <;>
      simp [countTrue, AExpr.eval, h, List.filter_cons] <;> push_cast <;> ring

lemma numSat_eval (r : List Char → Rat) (vals : List (BExpr × Rat)) :
    AExpr.eval r (numSat vals) = (countTrue r vals : Rat) := by
  rw [numSat, numSat_eval_aux]
  simp [AExpr.eval]

lemma countTrue_exVals (r : List Char → Rat) : countTrue r exVals = 1 := by
  rcases lt_or_le (r "x".data) 1 with hx | hx
  · simp [countTrue, exVals, BExpr.eval, AExpr.eval, List.filter_cons, hx, not_le.mpr hx]
  · simp [countTrue, exVals, BExpr.eval, AExpr.eval, List.filter_cons, hx, not_lt.mpr hx]

/-- C1: for every Piecewise instance, verify succeeds exactly when the
backend reports the pushed query (count of true conditions differs from
one) unsatisfiable, and any other outcome raises a failure carrying the
outcome and the condition/value list. The code has this inverted: the
statement on nonlinear.py:99 is assert satisfiable != z3.unsat, so verify
raises precisely when the check reports unsatisfiable. Witnessed here on a
genuinely mutually exclusive and exhaustive list: its query is
unsatisfiable under the semantics (first conjunct), and any check function
reporting unsat makes verify raise the failure (second conjunct), where the
claim demands success. -/
theorem C1_verify_raises_on_unsat_outcome :
    (∀ r : List Char → Rat, ¬ stateSat r (pEx.queryState MySolver.empty)) ∧
    (∀ check : MySolver → CheckResult,
      check (pEx.queryState MySolver.empty) = CheckResult.unsat →
        (pEx.verify none check).1 = Except.error (CheckResult.unsat, exVals)) := by
  constructor
  · intro r hsat
    have hmem : BExpr.ne (numSat exVals) (AExpr.lit 1)
        ∈ (pEx.queryState MySolver.empty).assertions := by
      simp [Piecewise.queryState, MySolver.push, MySolver.add, MySolver.empty, pEx,
        Piecewise.init]
    have hne : AExpr.eval r (numSat exVals) ≠ AExpr.eval r (AExpr.lit 1) := by
      simpa [BExpr.eval] using hsat _ hmem
    apply hne
    rw [numSat_eval, countTrue_exVals]
    simp [AExpr.eval]
  · intro check hchk
    have hrfl : (pEx.verify none check).1
        = if check (pEx.queryState MySolver.empty) = CheckResult.unsat then
            Except.error (check (pEx.queryState MySolver.empty), pEx.vals)
          else Except.ok () := rfl
    rw [hrfl, hchk]
    rfl

/-- Witness for C1: the concrete check oracle that reports unsat on every
state makes verify raise on the example instance. -/
theorem C1_witness :
    (pEx.verify none (fun _ => CheckResult.unsat)).1
      = Except.error (CheckResult.unsat, exVals) :=
  C1_verify_raises_on_unsat_outcome.2 (fun _ => CheckResult.unsat) rfl

/-- C9: verify computes the count of true conditions as the sum of
If(c, 1, 0) terms, then performs push, assert count-not-equal-1, check and
pop in that order, with the pop executed before the final assert statement
and hence on both the success and the failure path. Conjuncts: the solver
state verify returns agrees with the given state on assertions, scope stack
and declarations; the checked state is the given state with one pushed
scope holding exactly the disequality; the raise-or-return outcome depends
only on the check result of that state; and the asserted sum evaluates to
the number of true conditions under every assignment. -/
theorem C9_verify_is_scoped (p : Piecewise) (sOpt : Option MySolver)
    (check : MySolver → CheckResult) :
    ((p.verify sOpt check).2.assertions = (sOpt.getD MySolver.empty).assertions
      ∧ (p.verify sOpt check).2.stack = (sOpt.getD MySolver.empty).stack
      ∧ (p.verify sOpt check).2.decls = (sOpt.getD MySolver.empty).decls)
    ∧ p.queryState (sOpt.getD MySolver.empty)
        = { decls := (sOpt.getD MySolver.empty).decls,
            assertions := (sOpt.getD MySolver.empty).assertions
              ++ [BExpr.ne (numSat p.vals) (AExpr.lit 1)],
            stack := (sOpt.getD MySolver.empty).assertions.length
              :: (sOpt.getD MySolver.empty).stack }
    ∧ (p.verify sOpt check).1
        = (if check (p.queryState (sOpt.getD MySolver.empty)) = CheckResult.unsat
           then Except.error (CheckResult.unsat, p.vals) else Except.ok ())
    ∧ (∀ r : List Char → Rat,
        AExpr.eval r (numSat p.vals) = (countTrue r p.vals : Rat)) := by
  refine ⟨⟨?_, rfl, rfl⟩, rfl, ?_, fun r => numSat_eval r p.vals⟩
  · show (((sOpt.getD MySolver.empty).assertions
        ++ [BExpr.ne (numSat p.vals) (AExpr.lit 1)]).take
          (sOpt.getD MySolver.empty).assertions.length)
      = (sOpt.getD MySolver.empty).assertions
    exact List.take_left _ _
  · have hr : (p.verify sOpt check).1
        = if check (p.queryState (sOpt.getD MySolver.empty)) = CheckResult.unsat
          then Except.error (check (p.queryState (sOpt.getD MySolver.empty)), p.vals)
          else Except.ok () := rfl
    rw [hr]
    by_cases h : check (p.queryState (sOpt.getD MySolver.empty)) = CheckResult.unsat
    · rw [if_pos h, if_pos h, h]
    · rw [if_neg h, if_neg h]

/-- C3: the first call to val on an instance whose materialized value is
unset returns the fresh unknown named valName id, records exactly that one
declaration, appends exactly one implication per condition/value pair to
the backend, and caches the handle; calling val again on the resulting
state returns the identical handle and leaves the instance and the solver
(in particular the assertion count) unchanged. -/
theorem C3_val_materializes_once (p : Piecewise) (s : MySolver)
    (h : p.val_def = none) :
    (p.val s).1 = AExpr.var (valName p.id)
    ∧ (p.val s).2.2.decls = s.decls ++ [valName p.id]
    ∧ (p.val s).2.2.assertions = s.assertions ++ p.vals.map
        (fun cv => BExpr.implies cv.1
          (BExpr.eq (AExpr.var (valName p.id)) (AExpr.lit cv.2)))
    ∧ (p.val s).2.1.val_def = some (AExpr.var (valName p.id))
    ∧ (p.val s).2.1.val (p.val s).2.2 = ((p.val s).1, (p.val s).2.1, (p.val s).2.2) := by
  obtain ⟨nm, i, a, vd, vs⟩ := p
  simp only [Piecewise.mk.injEq] at h ⊢
  subst h
  refine ⟨rfl, ?_, ?_, rfl, rfl⟩
  · simp [Piecewise.val, z3Real, foldl_add_eq]
  · simp [Piecewise.val, z3Real, foldl_add_eq]

/-- Witness for C3: first call on a concrete fresh instance yields the
variable named from its id. -/
theorem C3_witness :
    ((Piecewise.init "q".data exVals 5).1.val MySolver.empty).1
      = AExpr.var (valName (Piecewise.init "q".data exVals 5).1.id) :=
  (C3_val_materializes_once (Piecewise.init "q".data exVals 5).1 MySolver.empty rfl).1

/-- C4: two instances produced by the constructor at different values of
the process-wide counter (the constructor increments it, so two
constructions in one process always see different values, whatever their
order and even with equal caller-supplied names) generate no common symbol
name: every name either instance can generate through val, mul or add
differs from every name the other can generate, because each generated
name embeds the instance id unambiguously. -/
theorem C4_distinct_instances_distinct_names
    (nm₁ nm₂ : List Char) (v₁ v₂ : List (BExpr × Rat)) (c₁ c₂ : Nat) (hne : c₁ ≠ c₂)
    (n₁ n₂ : List Char)
    (h₁ : (Piecewise.init nm₁ v₁ c₁).1.isGenName n₁)
    (h₂ : (Piecewise.init nm₂ v₂ c₂).1.isGenName n₂) :
    n₁ ≠ n₂ := by
  rcases h₁ with h₁ | ⟨a₁, h₁⟩ | ⟨a₁, h₁⟩ <;> rcases h₂ with h₂ | ⟨a₂, h₂⟩ | ⟨a₂, h₂⟩ <;>
    subst h₁ <;> subst h₂
  all_goals first
    | exact fun hEq => hne (valName_inj hEq)
    | exact fun hEq => hne (mulName_inj hEq).1
    | exact fun hEq => hne (addName_inj hEq).1
    | exact valName_ne_mulName _ _ _ _
    | exact fun hEq => valName_ne_mulName _ _ _ _ hEq.symm
    | exact valName_ne_addName _ _ _
    | exact fun hEq => valName_ne_addName _ _ _ hEq.symm
    | exact mulName_ne_addName _ _ _ _ _
    | exact fun hEq => mulName_ne_addName _ _ _ _ _ hEq.symm

/-- Witness for C4: two instances constructed in sequence with the same
caller-supplied name; a val-name of the first differs from an add-name of
the second. -/
theorem C4_witness :
    (Piecewise.init "n".data [] 0).1.isGenName (valName 0)
    ∧ (Piecewise.init "n".data [] 1).1.isGenName (addName 1 0)
    ∧ valName 0 ≠ addName 1 0 :=
  ⟨Or.inl rfl, Or.inr (Or.inr ⟨0, rfl⟩),
    C4_distinct_instances_distinct_names "n".data "n".data [] [] 0 1 (by decide) _ _
      (Or.inl rfl) (Or.inr (Or.inr ⟨0, rfl⟩))⟩

/-- C5: multiplication by a symbolic operand allocates a fresh auxiliary
named from the instance name, its id and the auxiliary counter, increments
only that counter, registers one implication condition-implies
aux-equals-value-times-operand per pair, and returns the auxiliary; a
second symbolic multiplication on the resulting instance uses the next
counter value, and the two generated names differ. -/
theorem C5_mul_symbolic_fresh_aux (p : Piecewise) (e : AExpr) (s : MySolver) :
    (p.mul (Sum.inr e) s).1 = AExpr.var (mulName p.name p.id p.aux_id)
    ∧ (p.mul (Sum.inr e) s).2.1 = { p with aux_id := p.aux_id + 1 }
    ∧ (p.mul (Sum.inr e) s).2.2.decls = s.decls ++ [mulName p.name p.id p.aux_id]
    ∧ (p.mul (Sum.inr e) s).2.2.assertions = s.assertions ++ p.vals.map
        (fun cv => BExpr.implies cv.1
          (BExpr.eq (AExpr.var (mulName p.name p.id p.aux_id))
            (AExpr.mul (AExpr.lit cv.2) e)))
    ∧ (∀ (e' : AExpr) (s' : MySolver),
        ((p.mul (Sum.inr e) s).2.1.mul (Sum.inr e') s').1
          = AExpr.var (mulName p.name p.id (p.aux_id + 1)))
    ∧ mulName p.name p.id (p.aux_id + 1) ≠ mulName p.name p.id p.aux_id := by
  refine ⟨rfl, rfl, ?_, ?_, fun e' s' => rfl,
    fun hEq => Nat.succ_ne_self p.aux_id (mulName_inj hEq).2⟩
  · simp [Piecewise.mul, z3Real, foldl_add_eq]
  · simp [Piecewise.mul, z3Real, foldl_add_eq]

/-- Counterexample to C6 as stated: on an instance whose materialized value
has not yet been created, multiplying by the literal 2 does allocate a
backend symbol (the materialized value), so the backend declaration list
does not stay unchanged. -/
theorem C6_counterexample :
    ¬ (((Piecewise.init "m".data exVals 0).1.mul (Sum.inl 2) MySolver.empty).2.2.decls
        = MySolver.empty.decls) := by
  intro h
  simp [Piecewise.init, Piecewise.mul, Piecewise.val, z3Real, MySolver.empty,
    MySolver.add, exVals] at h

/-- C6 as amended: multiplication by a plain numeric literal k returns the
materialized value (via val) times k, leaves the auxiliary counter
unchanged and allocates no auxiliary symbol; the only possible backend
change is the one val itself performs when the materialized value does not
exist yet, namely declaring the one symbol valName id (and registering the
val implications); when the materialized value already exists nothing is
declared. -/
theorem C6_mul_literal (p : Piecewise) (k : Rat) (s : MySolver) :
    (p.mul (Sum.inl k) s).1 = AExpr.mul (p.val s).1 (AExpr.lit k)
    ∧ (p.mul (Sum.inl k) s).2.1.aux_id = p.aux_id
    ∧ (p.mul (Sum.inl k) s).2.2 = (p.val s).2.2
    ∧ (p.mul (Sum.inl k) s).2.2.decls = s.decls ++
        (match p.val_def with
         | some _ => ([] : List (List Char))
         | none => [valName p.id]) := by
  obtain ⟨nm, i, a, vd, vs⟩ := p
  refine ⟨rfl, ?_, rfl, ?_⟩
  · cases vd <;> rfl
  · cases vd with
    | some v => simp [Piecewise.mul, Piecewise.val]
    | none => simp [Piecewise.mul, Piecewise.val, z3Real, foldl_add_eq]

/-- C7: addition always allocates a fresh auxiliary (named from the id and
the auxiliary counter), for a literal operand as well as a symbolic one,
increments the auxiliary counter, registers one implication
condition-implies aux-equals-value-plus-operand per pair, and returns the
auxiliary; the generated name never equals the cached materialized value's
name. -/
theorem C7_add_always_allocates (p : Piecewise) (other : Rat ⊕ AExpr) (s : MySolver) :
    (p.addOp other s).1 = AExpr.var (addName p.id p.aux_id)
    ∧ (p.addOp other s).2.1 = { p with aux_id := p.aux_id + 1 }
    ∧ (p.addOp other s).2.2.decls = s.decls ++ [addName p.id p.aux_id]
    ∧ (p.addOp other s).2.2.assertions = s.assertions ++ p.vals.map
        (fun cv => BExpr.implies cv.1
          (BExpr.eq (AExpr.var (addName p.id p.aux_id)) (pyAdd cv.2 other)))
    ∧ addName p.id p.aux_id ≠ valName p.id := by
  refine ⟨rfl, rfl, ?_, ?_,
    fun hEq => valName_ne_addName p.id p.id p.aux_id hEq.symm⟩
  · simp [Piecewise.addOp, z3Real, foldl_add_eq]
  · simp [Piecewise.addOp, z3Real, foldl_add_eq]

/-- C8: a from_var call whose candidate-value sequence length differs from
the breakpoint count plus one stops at the assert on nonlinear.py:49 with
AssertionError; in the embedding from_var never touches the solver or the
class counter on this path (its result carries neither), so construction
aborts with no instance created and no backend change. -/
theorem C8_from_var_shape_mismatch (var : AExpr) (breaks : List Rat)
    (range_vals : List (Option Rat)) (s : MySolver) (counter : Nat)
    (h : range_vals.length ≠ breaks.length + 1) :
    Piecewise.from_var var breaks range_vals s counter
      = Except.error PyError.assertionError := by
  simp [Piecewise.from_var, h]

/-- Witness for C8: the empty value list with empty breakpoints violates
the length precondition and yields AssertionError. -/
theorem C8_witness :
    Piecewise.from_var (AExpr.var "x".data) [] [] MySolver.empty 0
      = Except.error PyError.assertionError :=
  C8_from_var_shape_mismatch _ _ _ _ _ (by decide)

/-- C2: the condition/value list built inside from_var pairs the interval
membership tests with the candidate values in order and drops the None
entries (second and third conjuncts, on the spec's example shapes); but
from_var itself never returns that Piecewise: line 58 calls
Piecewise(s, vals) with two arguments while __init__ requires the three
arguments s, name and vals, so every call that reaches it raises TypeError
(first conjunct). -/
theorem C2_from_var_builds_list_but_raises :
    (∀ (var : AExpr) (a b c d : Rat) (s : MySolver) (k : Nat),
      Piecewise.from_var var [1, 2, 3] [some a, some b, some c, some d] s k
        = Except.error PyError.typeError)
    ∧ (∀ (var : AExpr) (a b c d : Rat),
      fromVarVals var [1, 2, 3] [some a, some b, some c, some d]
        = [(BExpr.lt var (AExpr.lit 1), a),
           (BExpr.and (BExpr.ge var (AExpr.lit 1)) (BExpr.lt var (AExpr.lit 2)), b),
           (BExpr.and (BExpr.ge var (AExpr.lit 2)) (BExpr.lt var (AExpr.lit 3)), c),
           (BExpr.ge var (AExpr.lit 3), d)])
    ∧ (∀ (var : AExpr) (a c d : Rat),
      fromVarVals var [1, 2, 3] [some a, none, some c, some d]
        = [(BExpr.lt var (AExpr.lit 1), a),
           (BExpr.and (BExpr.ge var (AExpr.lit 2)) (BExpr.lt var (AExpr.lit 3)), c),
           (BExpr.ge var (AExpr.lit 3), d)]) :=
  ⟨fun _ _ _ _ _ _ _ => rfl, fun _ _ _ _ _ => rfl, fun _ _ _ _ => rfl⟩

/-- C10: from_var called with an empty breakpoint list and a one-element
candidate-value list passes the length assert but fails on line 50 with an
out-of-bounds access (breaks[0] on an empty list), so no single-interval
Piecewise is ever produced; a nonempty breakpoint list is necessary to get
past this point. -/
theorem C10_from_var_empty_breaks (var : AExpr) (v : Option Rat) (s : MySolver)
    (k : Nat) :
    Piecewise.from_var var [] [v] s k = Except.error PyError.indexError := rfl
